import Mathlib

/-
Verification of the Tinybird Forward migration checker (src/main.py) against its
natural-language specification.  The Python code is shallowly embedded: file
contents are lists of characters, the regular expressions used by the tool are
modelled as executable character-list matchers, the file system is an explicit
association of paths to contents (plus a set of unreadable paths), and each
detector / remediation routine of `TinybirdMigrationAgent` becomes a Lean
function with the same control flow.
-/

namespace ForwardMigration

abbrev Chars := List Char
abbrev Path := String

/-- Python regex `\s` over the ASCII inputs handled by the tool. -/
def pyIsSpace (c : Char) : Bool :=
  c == ' ' || c == '\t' || c == '\n' || c == '\r' || c == '\x0b' || c == '\x0c'

/-- Case-sensitive `str.startswith` on character lists. -/
def begins : Chars → Chars → Bool
  | [], _ => true
  | _ :: _, [] => false
  | p :: ps, c :: cs => if p = c then begins ps cs else false

/-- Case-insensitive literal match (re.IGNORECASE): consume the pattern,
returning the remaining input on success. -/
def dropCI : Chars → Chars → Option Chars
  | [], s => some s
  | _ :: _, [] => none
  | p :: ps, c :: cs => if p.toLower = c.toLower then dropCI ps cs else none

def isPrefixCI (pat s : Chars) : Bool := (dropCI pat s).isSome

/-- Model of `re.search`: does the matcher succeed at some position of the input? -/
def anyPos (f : Chars → Bool) : Chars → Bool
  | [] => false
  | c :: cs => f (c :: cs) || anyPos f cs

/-- Python `str.strip()`. -/
def pyStrip (l : Chars) : Chars :=
  ((l.dropWhile pyIsSpace).reverse.dropWhile pyIsSpace).reverse

/-- Python `line.strip().startswith(pat)`. -/
def stripBegins (l pat : Chars) : Bool := begins pat (pyStrip l)

/-- The pattern `r'TYPE\s+sink'` matched at the start of the input (re.IGNORECASE). -/
def matchTypeSink (s : Chars) : Bool :=
  match dropCI "TYPE".data s with
  | none => false
  | some r =>
    match r with
    | [] => false
    | c :: _ => pyIsSpace c && (dropCI "sink".data (r.dropWhile pyIsSpace)).isSome

/-- Model of `re.search(r'TYPE\s+sink', content, re.IGNORECASE)`. -/
def searchTypeSink : Chars → Bool := anyPos matchTypeSink

/-- Model of `re.match(r'^\s*TYPE\s+sink', line, re.IGNORECASE)`. -/
def lineStartsSink (l : Chars) : Bool := matchTypeSink (l.dropWhile pyIsSpace)

/-- Python `content.split('\n')`. -/
def splitNl : Chars → List Chars
  | [] => [[]]
  | c :: cs =>
    if c = '\n' then [] :: splitNl cs
    else
      match splitNl cs with
      | [] => [[c]]
      | l :: ls => (c :: l) :: ls

/-- Python `'\n'.join(lines)`. -/
def joinNl : List Chars → Chars
  | [] => []
  | [l] => l
  | l :: ls => l ++ '\n' :: joinNl ls

def migrationMarker : Chars := "# COMMENTED OUT FOR FORWARD MIGRATION: ".data

/-- One iteration of the sink-section loop body of `fix_sinks`: the emitted
line and the updated `in_sink_section` state. -/
def fixSinksStep (inSink : Bool) (l : Chars) : Chars × Bool :=
  if lineStartsSink l then (migrationMarker ++ l, true)
  else if inSink && (stripBegins l "EXPORT_".data || stripBegins l "IMPORT_".data) then
    (migrationMarker ++ l, inSink)
  else if inSink && ((pyStrip l).isEmpty || !stripBegins l "#".data) then
    if !(pyStrip l).isEmpty && !stripBegins l "NODE".data && !stripBegins l "SQL".data then
      (migrationMarker ++ l, inSink)
    else
      (l, if !(pyStrip l).isEmpty && !stripBegins l "#".data then false else inSink)
  else (l, inSink)

/-- The per-line sink-section loop of `fix_sinks` (state `in_sink_section`). -/
def fixSinksLines : Bool → List Chars → List Chars
  | _, [] => []
  | inSink, l :: rest =>
    (fixSinksStep inSink l).1 :: fixSinksLines (fixSinksStep inSink l).2 rest

/-- The content transformation `fix_sinks` applies to a matching pipe file. -/
def fixSinksContent (c : Chars) : Chars := joinNl (fixSinksLines false (splitNl c))

def takeNonNl (s : Chars) : Chars := s.takeWhile (fun c => c != '\n')
def dropNonNl (s : Chars) : Chars := s.dropWhile (fun c => c != '\n')

/-- Greedy-with-backtracking match of `\s+[^\n]+` (the tail of the include
pattern): returns (consumed text, rest). -/
def argMatch : Chars → Option (Chars × Chars)
  | [] => none
  | c :: cs =>
    if pyIsSpace c then
      match argMatch cs with
      | some (a, r) => some (c :: a, r)
      | none =>
        if (takeNonNl cs).isEmpty then none
        else some (c :: takeNonNl cs, dropNonNl cs)
    else none

def includeChars : Chars := "INCLUDE".data

/-- One full match of `r'INCLUDE\s+[^\n]+'` at the start: (matched text, rest). -/
def matchIncludeFull (s : Chars) : Option (Chars × Chars) :=
  if isPrefixCI includeChars s then
    match argMatch (s.drop 7) with
    | some (a, r) => some (s.take 7 ++ a, r)
    | none => none
  else none

/-- Model of `include_pattern.search` with the remediation pattern `INCLUDE\s+[^\n]+`. -/
def searchIncludeFull : Chars → Bool := anyPos (fun s => (matchIncludeFull s).isSome)

/-- The pattern `r'INCLUDE\s+'` matched at the start (the detector pattern). -/
def matchIncl (s : Chars) : Bool :=
  match dropCI includeChars s with
  | none => false
  | some r =>
    match r with
    | [] => false
    | c :: _ => pyIsSpace c

/-- Model of `re.search(r'INCLUDE\s+', content, re.IGNORECASE)` in check_include_files. -/
def searchInclude : Chars → Bool := anyPos matchIncl

/-- Fuel-driven scan of `include_pattern.sub` over the whole content. -/
def includeSubGo : Nat → Chars → Chars
  | 0, s => s
  | _ + 1, [] => []
  | fuel + 1, c :: cs =>
    match matchIncludeFull (c :: cs) with
    | some (a, r) => migrationMarker ++ a ++ includeSubGo fuel r
    | none => c :: includeSubGo fuel cs

/-- Model of the substitution commenting every INCLUDE statement in place. -/
def includeSub (s : Chars) : Chars := includeSubGo s.length s

def sharedChars : Chars := "SHARED_WITH".data

/-- The pattern `r'SHARED_WITH\s*>'` matched at the start. -/
def matchShared (s : Chars) : Bool :=
  match dropCI sharedChars s with
  | none => false
  | some r =>
    match r.dropWhile pyIsSpace with
    | c :: _ => c == '>'
    | [] => false

/-- Model of `re.search(r'SHARED_WITH\s*>', content, re.IGNORECASE)`. -/
def searchSharedWith : Chars → Bool := anyPos matchShared

/-- The lookahead `(?=\n\n|\n[A-Z]|\Z)` of the SHARED_WITH removal pattern. -/
def lookaheadEnd : Chars → Bool
  | [] => true
  | c1 :: rest =>
    if c1 = '\n' then
      match rest with
      | [] => false
      | c2 :: _ => c2 == '\n' || c2.isUpper
    else false

/-- Lazy `.*?` consumption (re.DOTALL) until the lookahead holds. -/
def lazyRest : Chars → Chars
  | [] => []
  | c :: cs => if lookaheadEnd (c :: cs) then c :: cs else lazyRest cs

/-- One match of the SHARED_WITH removal pattern at the start: rest after it. -/
def matchSharedFull (s : Chars) : Option Chars :=
  match dropCI sharedChars s with
  | none => none
  | some r =>
    match r.dropWhile pyIsSpace with
    | c :: r2 => if c = '>' then some (lazyRest r2) else none
    | [] => none

def sharedSubGo : Nat → Chars → Chars
  | 0, s => s
  | _ + 1, [] => []
  | fuel + 1, c :: cs =>
    match matchSharedFull (c :: cs) with
    | some r => sharedSubGo fuel r
    | none => c :: sharedSubGo fuel cs

/-- Model of `shared_pattern.sub` removing every SHARED_WITH section. -/
def sharedSub (s : Chars) : Chars := sharedSubGo s.length s

/-- Model of the newline cleanup capping every newline run at two.  The first
argument counts the consecutive newlines already emitted in the current run. -/
def collapseNlGo : Nat → Chars → Chars
  | _, [] => []
  | n, c :: cs =>
    if c = '\n' then
      if n ≥ 2 then collapseNlGo n cs else '\n' :: collapseNlGo (n + 1) cs
    else c :: collapseNlGo 0 cs

def collapseNl (s : Chars) : Chars := collapseNlGo 0 s

/-- The content transformation of `fix_shared_datasources` on a matching file. -/
def fixSharedContent (c : Chars) : Chars := collapseNl (sharedSub c)

def nodeChars : Chars := "NODE".data

/-- Python `'NODE' in content` (case-sensitive substring test). -/
def containsNODE : Chars → Bool := anyPos (fun s => begins nodeChars s)

/-- The content transformation of `fix_endpoint_types` on a NODE-less file. -/
def fixEndpointContent (c : Chars) : Chars := joinNl ("NODE endpoint".data :: splitNl c)

/-- Split a path at `/` (Path.parts for the relative paths the tool walks). -/
def splitSlash : Chars → List Chars
  | [] => [[]]
  | c :: cs =>
    if c = '/' then [] :: splitSlash cs
    else
      match splitSlash cs with
      | [] => [[c]]
      | l :: ls => (c :: l) :: ls

def joinSlash : List Chars → Chars
  | [] => []
  | [l] => l
  | l :: ls => l ++ '/' :: joinSlash ls

/-- Python `Path.parts`. -/
def pathParts (p : Path) : List Chars := splitSlash p.data

/-- Python `Path.name`. -/
def pathName (p : Path) : Chars := (pathParts p).getLastD []

/-- Python `Path.parent`. -/
def parentPath (p : Path) : Path :=
  if (pathParts p).length ≤ 1 then "."
  else String.mk (joinSlash (pathParts p).dropLast)

/-- Python `Path.suffix`: the extension from the last dot of the file name, empty when
the dot is missing, leading or trailing. -/
def pathSuffix (p : Path) : Chars :=
  let r := (pathName p).reverse
  let pre := r.takeWhile (fun c => c != '.')
  match r.dropWhile (fun c => c != '.') with
  | [] => []
  | _ :: after => if pre.isEmpty || after.isEmpty then [] else '.' :: pre.reverse

structure FoundFiles where
  datasources : List Path
  pipes : List Path
  endpoints : List Path
  includes : List Path
  vendor : List Path
deriving DecidableEq

/-- The elif chain of `find_tinybird_files` classifying one walked file. -/
def addFile (acc : FoundFiles) (p : Path) : FoundFiles :=
  if pathSuffix p = ".datasource".data then { acc with datasources := acc.datasources ++ [p] }
  else if pathSuffix p = ".pipe".data then { acc with pipes := acc.pipes ++ [p] }
  else if pathSuffix p = ".endpoint".data then { acc with endpoints := acc.endpoints ++ [p] }
  else if pathSuffix p = ".incl".data then { acc with includes := acc.includes ++ [p] }
  else if (pathParts p).contains "vendor".data then { acc with vendor := acc.vendor ++ [p] }
  else acc

abbrev PyDict := List (String × List Path)

/-- The five-bucket dict literal of `find_tinybird_files`. -/
def mkInv (ds pp ep inc vd : List Path) : PyDict :=
  [("datasources", ds), ("pipes", pp), ("endpoints", ep), ("includes", inc), ("vendor", vd)]

/-- Model of `find_tinybird_files`: the empty dict when the root does not exist,
otherwise the five buckets filled from the walked files. -/
def findTinybirdFiles (rootExists : Bool) (walk : List Path) : PyDict :=
  if rootExists then
    let f := walk.foldl addFile ⟨[], [], [], [], []⟩
    mkInv f.datasources f.pipes f.endpoints f.includes f.vendor
  else []

/-- Python dict subscript: `files[k]`, raising KeyError when absent. -/
def dictGet (d : PyDict) (k : String) : Except String (List Path) :=
  match d.find? (fun kv => kv.1 == k) with
  | some kv => Except.ok kv.2
  | none => Except.error ("KeyError: " ++ k)

/-- Bucket membership tests mirroring the elif chain of find_tinybird_files. -/
def isDatasourceFile (p : Path) : Bool := pathSuffix p == ".datasource".data

def isPipeFile (p : Path) : Bool :=
  !isDatasourceFile p && (pathSuffix p == ".pipe".data)

def isEndpointFile (p : Path) : Bool :=
  !isDatasourceFile p && !(pathSuffix p == ".pipe".data) && (pathSuffix p == ".endpoint".data)

def isInclFile (p : Path) : Bool :=
  !isDatasourceFile p && !(pathSuffix p == ".pipe".data) &&
    !(pathSuffix p == ".endpoint".data) && (pathSuffix p == ".incl".data)

/-- A file lands in the vendor bucket only when no extension bucket matched
first (the elif chain) and some path segment equals `vendor`. -/
def isVendorBucketFile (p : Path) : Bool :=
  !(pathSuffix p == ".datasource".data) && !(pathSuffix p == ".pipe".data) &&
    !(pathSuffix p == ".endpoint".data) && !(pathSuffix p == ".incl".data) &&
    (pathParts p).contains "vendor".data


/-- File system state: path contents plus the set of paths whose read raises. -/
structure FSState where
  files : List (Path × Chars)
  broken : List Path
deriving DecidableEq

def lookupFile (fs : FSState) (p : Path) : Option Chars :=
  (fs.files.find? (fun pc => pc.1 == p)).map Prod.snd

/-- Python `Path.read_text()`, fallible. -/
def readFS (fs : FSState) (p : Path) : Except String Chars :=
  if fs.broken.contains p then Except.error "read failed"
  else
    match lookupFile fs p with
    | some c => Except.ok c
    | none => Except.error "No such file or directory"

def setFile : List (Path × Chars) → Path → Chars → List (Path × Chars)
  | [], p, c => [(p, c)]
  | (q, d) :: rest, p, c =>
    if q = p then (p, c) :: rest else (q, d) :: setFile rest p c

/-- Python `Path.write_text`. -/
def writeFS (fs : FSState) (p : Path) (c : Chars) : FSState :=
  { fs with files := setFile fs.files p c }

/-- Model of `backup_file`: `file.with_suffix(suffix + ".backup")` appends `.backup`. -/
def backupPath (p : Path) : Path := p ++ ".backup"

/-- Model of `fix_sinks`: per pipe file, on a `TYPE sink` match, copy to the backup path
and write the commented content; read failures are swallowed per file. -/
def fixSinks : List Path → FSState → List String × FSState
  | [], fs => ([], fs)
  | p :: ps, fs =>
    match readFS fs p with
    | Except.error _ => fixSinks ps fs
    | Except.ok c =>
      if searchTypeSink c then
        let fs1 := writeFS (writeFS fs (backupPath p) c) p (fixSinksContent c)
        let r := fixSinks ps fs1
        (("Commented out sink declarations in " ++ p) :: r.1, r.2)
      else fixSinks ps fs

/-- The datasource loop of `fix_shared_datasources`. -/
def fixSharedLoop : List Path → FSState → List String × FSState
  | [], fs => ([], fs)
  | p :: ps, fs =>
    match readFS fs p with
    | Except.error _ => fixSharedLoop ps fs
    | Except.ok c =>
      if searchSharedWith c then
        let fs1 := writeFS (writeFS fs (backupPath p) c) p (fixSharedContent c)
        let r := fixSharedLoop ps fs1
        (("Removed SHARED_WITH declaration from " ++ p) :: r.1, r.2)
      else fixSharedLoop ps fs

def underDir (d p : Path) : Bool := begins (d ++ "/").data p.data

def dirExists (fs : FSState) (d : Path) : Bool :=
  fs.files.any (fun pc => underDir d pc.1) || fs.broken.any (fun p => underDir d p)

/-- Python `shutil.rmtree` on the file-map model. -/
def removeDir (d : Path) (fs : FSState) : FSState :=
  ⟨fs.files.filter (fun pc => !underDir d pc.1), fs.broken.filter (fun p => !underDir d p)⟩

/-- The upward walk locating the directory literally named `vendor`. -/
def vendorDirUp : Nat → Path → Path
  | 0, d => d
  | n + 1, d =>
    if pathName d == "vendor".data || parentPath d == d then d
    else vendorDirUp n (parentPath d)

/-- Model of `fix_shared_datasources`: remove SHARED_WITH sections, then optionally
delete the vendor directory after its own confirmation. -/
def fixSharedDatasources (dsList vendorList : List Path) (confirmVendor : Bool)
    (fs : FSState) : List String × FSState :=
  let r1 := fixSharedLoop dsList fs
  if vendorList.isEmpty then r1
  else
    match vendorList.find? (fun f => (pathParts f).contains "vendor".data) with
    | none => r1
    | some vf =>
      let vd := vendorDirUp (pathParts vf).length (parentPath vf)
      if dirExists r1.2 vd then
        if confirmVendor then
          (r1.1 ++ ["Removed vendor directory " ++ vd], removeDir vd r1.2)
        else r1
      else r1

/-- The per-file loop of `fix_include_files`. -/
def fixIncludeLoop : List Path → FSState → List String × FSState
  | [], fs => ([], fs)
  | p :: ps, fs =>
    match readFS fs p with
    | Except.error _ => fixIncludeLoop ps fs
    | Except.ok c =>
      if searchIncludeFull c then
        let fs1 := writeFS (writeFS fs (backupPath p) c) p (includeSub c)
        let r := fixIncludeLoop ps fs1
        (("Commented out INCLUDE statements in " ++ p) :: r.1, r.2)
      else fixIncludeLoop ps fs

/-- Python `shutil.move` modelled as a rename. -/
def moveFile (src dst : Path) (fs : FSState) : FSState :=
  ⟨fs.files.map (fun pc => if pc.1 = src then (dst, pc.2) else pc),
   fs.broken.map (fun q => if q = src then dst else q)⟩

def moveIncls (root : Path) : List Path → FSState → List String × FSState
  | [], fs => ([], fs)
  | p :: ps, fs =>
    let np := root ++ "/includes_backup/" ++ String.mk (pathName p)
    let r := moveIncls root ps (moveFile p np fs)
    (("Moved " ++ p ++ " to " ++ np) :: r.1, r.2)

/-- Model of `fix_include_files`: comment INCLUDE statements in place, then optionally
move the `.incl` files to the backup directory after its own confirmation. -/
def fixIncludeFiles (allFiles incl : List Path) (root : Path) (confirmMove : Bool)
    (fs : FSState) : List String × FSState :=
  let r1 := fixIncludeLoop allFiles fs
  if incl.isEmpty then r1
  else if confirmMove then
    let r2 := moveIncls root incl r1.2
    (r1.1 ++ r2.1, r2.2)
  else r1

/-- Model of `fix_endpoint_types`. -/
def fixEndpointTypes : List Path → FSState → List String × FSState
  | [], fs => ([], fs)
  | p :: ps, fs =>
    match readFS fs p with
    | Except.error _ => fixEndpointTypes ps fs
    | Except.ok c =>
      if !containsNODE c then
        let fs1 := writeFS (writeFS fs (backupPath p) c) p (fixEndpointContent c)
        let r := fixEndpointTypes ps fs1
        (("Added missing NODE declaration to " ++ p) :: r.1, r.2)
      else fixEndpointTypes ps fs

/-- The `MigrationCheckResult` dataclass of src/main.py. -/
structure MigrationCheckResult where
  step_name : String
  status : String
  issues : List String
  files_checked : List String
  details : String
  auto_fixable : Bool
  fixed_issues : Option (List String)
deriving DecidableEq

def readErrIssue (p e : String) : String := "Error reading " ++ p ++ ": " ++ e

def sinkIssue (p : Path) : String :=
  "Sink found in " ++ p ++ ": Sinks are not supported in Tinybird Forward"

/-- The detection loop of `check_sinks`: (issues, files_checked). -/
def detectSinks (fs : FSState) : List Path → List String × List String
  | [] => ([], [])
  | p :: ps =>
    let r := detectSinks fs ps
    match readFS fs p with
    | Except.ok c => (if searchTypeSink c then sinkIssue p :: r.1 else r.1, p :: r.2)
    | Except.error e => (readErrIssue p e :: r.1, p :: r.2)

/-- The `MigrationCheckResult` literal built by `check_sinks` before any fix. -/
def sinksFinding (det : List String × List String) : MigrationCheckResult :=
  { step_name := "Sinks Check"
    status := if det.1.isEmpty then "PASS" else "FAIL"
    issues := det.1
    files_checked := det.2
    details := "Checked all .pipe files for TYPE sink declarations."
    auto_fixable := !det.1.isEmpty
    fixed_issues := none }

/-- Model of `check_sinks`, with the interactive confirmation passed as a boolean. -/
def checkSinks (d : PyDict) (fs : FSState) (confirm : Bool) :
    Except String (MigrationCheckResult × FSState) := do
  let pipes ← dictGet d "pipes"
  let det := detectSinks fs pipes
  let base : MigrationCheckResult := sinksFinding det
  if !det.1.isEmpty && base.auto_fixable then
    if confirm then
      let r := fixSinks pipes fs
      let upd := { base with
        fixed_issues := some r.1
        status := if r.1.isEmpty then base.status else "FIXED" }
      pure (upd, r.2)
    else pure (base, fs)
  else pure (base, fs)

def sharedIssue (p : Path) : String :=
  "Shared datasource found in " ++ p ++ ": Shared datasources are not supported in Forward"

/-- The datasource detection loop of `check_shared_datasources`. -/
def detectShared (fs : FSState) : List Path → List String × List String
  | [] => ([], [])
  | p :: ps =>
    let r := detectShared fs ps
    match readFS fs p with
    | Except.ok c => (if searchSharedWith c then sharedIssue p :: r.1 else r.1, p :: r.2)
    | Except.error e => (readErrIssue p e :: r.1, p :: r.2)

/-- The `MigrationCheckResult` literal built by `check_shared_datasources`. -/
def sharedFinding (issues checked : List String) : MigrationCheckResult :=
  { step_name := "Shared Datasources Check"
    status := if issues.isEmpty then "PASS" else "FAIL"
    issues := issues
    files_checked := checked
    details := "Checked for SHARED_WITH declarations and vendor directory."
    auto_fixable := !issues.isEmpty
    fixed_issues := none }

/-- Model of `check_shared_datasources`. -/
def checkSharedDatasources (d : PyDict) (fs : FSState) (confirm confirmVendor : Bool) :
    Except String (MigrationCheckResult × FSState) := do
  let ds ← dictGet d "datasources"
  let vd ← dictGet d "vendor"
  let det := detectShared fs ds
  let issues := det.1 ++ (if vd.isEmpty then [] else
    ["Vendor directory found with " ++ toString vd.length ++
     " files: Vendor datasources not supported in Forward"])
  let checked := det.2 ++ (if vd.isEmpty then [] else vd)
  let base : MigrationCheckResult := sharedFinding issues checked
  if !issues.isEmpty && base.auto_fixable then
    if confirm then
      let r := fixSharedDatasources ds vd confirmVendor fs
      let upd := { base with
        fixed_issues := some r.1
        status := if r.1.isEmpty then base.status else "FIXED" }
      pure (upd, r.2)
    else pure (base, fs)
  else pure (base, fs)

def endpointIssue (p : Path) : String := "Endpoint " ++ p ++ " may have incorrect structure"

/-- The detection loop of `check_endpoint_types`. -/
def detectEndpoints (fs : FSState) : List Path → List String × List String
  | [] => ([], [])
  | p :: ps =>
    let r := detectEndpoints fs ps
    match readFS fs p with
    | Except.ok c => (if !containsNODE c then endpointIssue p :: r.1 else r.1, p :: r.2)
    | Except.error e => (readErrIssue p e :: r.1, p :: r.2)

/-- The `MigrationCheckResult` literal built by `check_endpoint_types`. -/
def endpointFinding (det : List String × List String) : MigrationCheckResult :=
  { step_name := "Endpoint Types Check"
    status := if det.1.isEmpty then "PASS" else "WARNING"
    issues := det.1
    files_checked := det.2
    details := "Checked endpoint file structures."
    auto_fixable := !det.1.isEmpty
    fixed_issues := none }

/-- Model of `check_endpoint_types`. -/
def checkEndpointTypes (d : PyDict) (fs : FSState) (confirm : Bool) :
    Except String (MigrationCheckResult × FSState) := do
  let ep ← dictGet d "endpoints"
  let det := detectEndpoints fs ep
  let base : MigrationCheckResult := endpointFinding det
  if !det.1.isEmpty && base.auto_fixable then
    if confirm then
      let r := fixEndpointTypes ep fs
      let upd := { base with
        fixed_issues := some r.1
        status := if r.1.isEmpty then base.status else "FIXED" }
      pure (upd, r.2)
    else pure (base, fs)
  else pure (base, fs)

def includeIssue (p : Path) : String :=
  "Include statement found in " ++ p ++ ": Verify include file compatibility"

/-- The per-file detection loop of `check_include_files`. -/
def detectIncludes (fs : FSState) : List Path → List String × List String
  | [] => ([], [])
  | p :: ps =>
    let r := detectIncludes fs ps
    match readFS fs p with
    | Except.ok c => (if searchInclude c then includeIssue p :: r.1 else r.1, p :: r.2)
    | Except.error e => (readErrIssue p e :: r.1, p :: r.2)

/-- The `MigrationCheckResult` literal built by `check_include_files`. -/
def includeFinding (issues checked : List String) : MigrationCheckResult :=
  { step_name := "Include Files Check"
    status := if issues.isEmpty then "PASS" else "WARNING"
    issues := issues
    files_checked := checked
    details := "Checked for INCLUDE statements and .incl files."
    auto_fixable := !issues.isEmpty
    fixed_issues := none }

/-- Model of `check_include_files`. -/
def checkIncludeFiles (d : PyDict) (root : Path) (fs : FSState)
    (confirm confirmMove : Bool) : Except String (MigrationCheckResult × FSState) := do
  let pipes ← dictGet d "pipes"
  let ds ← dictGet d "datasources"
  let ep ← dictGet d "endpoints"
  let allFiles := pipes ++ ds ++ ep
  let incl ← dictGet d "includes"
  let det := detectIncludes fs allFiles
  let issues := det.1 ++ (if incl.isEmpty then [] else
    ["Found " ++ toString incl.length ++ " include files: Review for Forward compatibility"])
  let checked := det.2 ++ (if incl.isEmpty then [] else incl)
  let base : MigrationCheckResult := includeFinding issues checked
  if !issues.isEmpty && base.auto_fixable then
    if confirm then
      let r := fixIncludeFiles allFiles incl root confirmMove fs
      let upd := { base with
        fixed_issues := some r.1
        status := if r.1.isEmpty then base.status else "FIXED" }
      pure (upd, r.2)
    else pure (base, fs)
  else pure (base, fs)

/-- Observer: the resulting file system of a successful check. -/
def runFS (r : Except String (MigrationCheckResult × FSState)) : Option FSState :=
  match r with
  | Except.ok x => some x.2
  | Except.error _ => none

/-- Observer: the finding of a successful check. -/
def runFinding (r : Except String (MigrationCheckResult × FSState)) :
    Option MigrationCheckResult :=
  match r with
  | Except.ok x => some x.1
  | Except.error _ => none

/-- Observer: the raised error of a failed check. -/
def runErr (r : Except String (MigrationCheckResult × FSState)) : Option String :=
  match r with
  | Except.ok _ => none
  | Except.error e => some e

/-- Observer: the status field of a successful check. -/
def runStatus (r : Except String (MigrationCheckResult × FSState)) : Option String :=
  (runFinding r).map (fun f => f.status)

/-! ### Basic lemmas about the character-level matchers -/

theorem begins_append_self (p z : Chars) : begins p (p ++ z) = true := by
  induction p with
  | nil => rfl
  | cons c cs ih => simpa [begins] using ih

theorem dropCI_nil_none (p : Char) (ps : Chars) : dropCI (p :: ps) [] = none := rfl

theorem dropCI_append {pat s u r : Chars} (h : dropCI pat s = some r) :
    dropCI pat (s ++ u) = some (r ++ u) := by
  induction pat generalizing s r with
  | nil =>
    simp only [dropCI, Option.some.injEq] at h
    subst h
    rfl
  | cons p ps ih =>
    cases s with
    | nil => exact absurd h (by simp [dropCI])
    | cons c cs =>
      by_cases hpc : p.toLower = c.toLower
      · simp only [dropCI, if_pos hpc] at h
        simpa only [List.cons_append, dropCI, if_pos hpc] using ih h
      · simp [dropCI, if_neg hpc] at h

theorem dropCI_decomp {pat s r : Chars} (h : dropCI pat s = some r) :
    ∃ pre, s = pre ++ r ∧ pre.map Char.toLower = pat.map Char.toLower := by
  induction pat generalizing s r with
  | nil =>
    simp only [dropCI, Option.some.injEq] at h
    exact ⟨[], by simp [h], by simp⟩
  | cons p ps ih =>
    cases s with
    | nil => exact absurd h (by simp [dropCI])
    | cons c cs =>
      by_cases hpc : p.toLower = c.toLower
      · simp only [dropCI, if_pos hpc] at h
        obtain ⟨pre, hpre, hmap⟩ := ih h
        exact ⟨c :: pre, by simp [hpre], by simp [hmap, hpc]⟩
      · simp [dropCI, if_neg hpc] at h

theorem anyPos_append_right {f : Chars → Bool} {b : Chars} (a : Chars)
    (h : anyPos f b = true) : anyPos f (a ++ b) = true := by
  induction a with
  | nil => simpa using h
  | cons x a' ih => simp [anyPos, ih]

theorem anyPos_head {f : Chars → Bool} {c : Char} {cs : Chars}
    (h : f (c :: cs) = true) : anyPos f (c :: cs) = true := by
  simp [anyPos, h]

/-! ### split / join round trips -/

theorem splitNl_ne_nil (s : Chars) : splitNl s ≠ [] := by
  induction s with
  | nil => simp [splitNl]
  | cons c cs ih =>
    by_cases hc : c = '\n'
    · simp [splitNl, hc]
    · simp only [splitNl, if_neg hc]
      cases h : splitNl cs with
      | nil => simp
      | cons l ls => simp

theorem splitNl_no_nl (s : Chars) : ∀ l ∈ splitNl s, '\n' ∉ l := by
  induction s with
  | nil => simp [splitNl]
  | cons c cs ih =>
    intro l hl
    by_cases hc : c = '\n'
    · simp only [splitNl, if_pos hc] at hl
      rcases List.mem_cons.mp hl with h1 | h1
      · simp [h1]
      · exact ih l h1
    · cases h : splitNl cs with
      | nil => exact absurd h (splitNl_ne_nil cs)
      | cons l0 ls =>
        simp only [splitNl, if_neg hc, h] at hl
        rcases List.mem_cons.mp hl with h1 | h1
        · subst h1
          intro hmem
          rcases List.mem_cons.mp hmem with h2 | h2
          · exact hc h2.symm
          · exact ih l0 (by rw [h]; exact List.mem_cons_self _ _) h2
        · exact ih l (by rw [h]; exact List.mem_cons_of_mem _ h1)

theorem joinNl_cons {l : Chars} {ls : List Chars} (h : ls ≠ []) :
    joinNl (l :: ls) = l ++ '\n' :: joinNl ls := by
  cases ls with
  | nil => exact absurd rfl h
  | cons x xs => rfl

theorem joinNl_splitNl (s : Chars) : joinNl (splitNl s) = s := by
  induction s with
  | nil => rfl
  | cons c cs ih =>
    by_cases hc : c = '\n'
    · rw [show splitNl (c :: cs) = [] :: splitNl cs by simp [splitNl, hc],
        joinNl_cons (splitNl_ne_nil cs), ih, hc]
      rfl
    · simp only [splitNl, if_neg hc]
      cases h : splitNl cs with
      | nil => exact absurd h (splitNl_ne_nil cs)
      | cons l0 ls =>
        rw [h] at ih
        cases ls with
        | nil => simpa [joinNl] using congrArg (c :: ·) ih
        | cons y ys =>
          rw [joinNl_cons (by simp), List.cons_append,
            ← joinNl_cons (show (y :: ys) ≠ [] by simp)]
          exact congrArg (c :: ·) ih

theorem splitNl_of_no_nl {l : Chars} (hl : '\n' ∉ l) : splitNl l = [l] := by
  induction l with
  | nil => rfl
  | cons c cs ih =>
    have hc : c ≠ '\n' := fun h => hl (by simp [h])
    have := ih (fun h => hl (List.mem_cons_of_mem _ h))
    simp [splitNl, hc, this]

theorem splitNl_append_nl {l : Chars} (hl : '\n' ∉ l) (rest : Chars) :
    splitNl (l ++ '\n' :: rest) = l :: splitNl rest := by
  induction l with
  | nil => simp [splitNl]
  | cons c cs ih =>
    have hc : c ≠ '\n' := fun h => hl (by simp [h])
    have := ih (fun h => hl (List.mem_cons_of_mem _ h))
    simp [splitNl, hc, this]

theorem splitNl_joinNl {ls : List Chars} (h : ∀ l ∈ ls, '\n' ∉ l) (hne : ls ≠ []) :
    splitNl (joinNl ls) = ls := by
  induction ls with
  | nil => exact absurd rfl hne
  | cons l rest ih =>
    cases rest with
    | nil => exact splitNl_of_no_nl (h l (by simp))
    | cons y ys =>
      rw [joinNl_cons (by simp), splitNl_append_nl (h l (by simp))]
      exact congrArg (l :: ·) (ih (fun x hx => h x (List.mem_cons_of_mem _ hx)) (by simp))

/-! ### The sink state machine: output lines never re-trigger the entry test -/

theorem marker_head :
    migrationMarker ++ l = '#' :: (" COMMENTED OUT FOR FORWARD MIGRATION: ".data ++ l) := rfl

theorem marker_not_lineStartsSink (l : Chars) :
    lineStartsSink (migrationMarker ++ l) = false := by
  rw [lineStartsSink, marker_head, List.dropWhile_cons, if_neg (by decide)]
  have h3 : dropCI "TYPE".data ('#' :: (" COMMENTED OUT FOR FORWARD MIGRATION: ".data ++ l))
      = none := by
    rw [show "TYPE".data = 'T' :: "YPE".data from rfl]
    simp only [dropCI]
    rw [if_neg (by decide)]
  simp only [matchTypeSink, h3]

theorem fixSinksStep_start {l : Chars} (h : lineStartsSink l = true) (b : Bool) :
    (fixSinksStep b l).1 = migrationMarker ++ l := by
  unfold fixSinksStep
  rw [if_pos h]

theorem fixSinksStep_false {l : Chars} (h : lineStartsSink l = false) :
    fixSinksStep false l = (l, false) := by
  unfold fixSinksStep
  simp [h]

theorem fixSinksStep_no_start (b : Bool) (l : Chars) :
    lineStartsSink (fixSinksStep b l).1 = false := by
  unfold fixSinksStep
  split
  · exact marker_not_lineStartsSink l
  · split
    · exact marker_not_lineStartsSink l
    · split
      · split
        · exact marker_not_lineStartsSink l
        · next h _ _ _ => simpa using h
      · next h _ _ => simpa using h

theorem fixSinksStep_fst (b : Bool) (l : Chars) :
    (fixSinksStep b l).1 = l ∨ (fixSinksStep b l).1 = migrationMarker ++ l := by
  unfold fixSinksStep
  split
  · exact Or.inr rfl
  · split
    · exact Or.inr rfl
    · split
      · split
        · exact Or.inr rfl
        · exact Or.inl rfl
      · exact Or.inl rfl

theorem fixSinksLines_no_start (b : Bool) (ls : List Chars) :
    ∀ l' ∈ fixSinksLines b ls, lineStartsSink l' = false := by
  induction ls generalizing b with
  | nil => simp [fixSinksLines]
  | cons l rest ih =>
    intro l' hl'
    rcases List.mem_cons.mp hl' with h1 | h1
    · rw [h1]; exact fixSinksStep_no_start b l
    · exact ih _ l' h1

theorem fixSinksLines_id {ls : List Chars} (h : ∀ l ∈ ls, lineStartsSink l = false) :
    fixSinksLines false ls = ls := by
  induction ls with
  | nil => rfl
  | cons l rest ih =>
    have hs := fixSinksStep_false (h l (List.mem_cons_self _ _))
    simp only [fixSinksLines, hs]
    exact congrArg (l :: ·) (ih (fun x hx => h x (List.mem_cons_of_mem _ hx)))

theorem marker_no_nl : '\n' ∉ migrationMarker := by decide

theorem fixSinksLines_no_nl {ls : List Chars} (h : ∀ l ∈ ls, '\n' ∉ l) (b : Bool) :
    ∀ l' ∈ fixSinksLines b ls, '\n' ∉ l' := by
  induction ls generalizing b with
  | nil => simp [fixSinksLines]
  | cons l rest ih =>
    intro l' hl'
    rcases List.mem_cons.mp hl' with h1 | h1
    · rcases fixSinksStep_fst b l with h2 | h2
      · rw [h1, h2]; exact h l (List.mem_cons_self _ _)
      · rw [h1, h2]
        intro hmem
        rcases List.mem_append.mp hmem with h3 | h3
        · exact marker_no_nl h3
        · exact h l (List.mem_cons_self _ _) h3
    · exact ih (fun x hx => h x (List.mem_cons_of_mem _ hx)) _ l' h1

theorem fixSinksLines_ne_nil {ls : List Chars} (h : ls ≠ []) (b : Bool) :
    fixSinksLines b ls ≠ [] := by
  cases ls with
  | nil => exact absurd rfl h
  | cons l rest => simp [fixSinksLines]

/-- Sinks remediation is idempotent on file content. -/
theorem fixSinksContent_idem (c : Chars) :
    fixSinksContent (fixSinksContent c) = fixSinksContent c := by
  unfold fixSinksContent
  rw [splitNl_joinNl (fixSinksLines_no_nl (splitNl_no_nl c) false)
      (fixSinksLines_ne_nil (splitNl_ne_nil c) false),
    fixSinksLines_id (fixSinksLines_no_start false (splitNl c))]

/-! ### The sink trigger pattern survives the remediation rewrite -/

theorem dropCI_some_ne_nil {pat s x : Chars} (hp : pat ≠ []) (h : dropCI pat s = some x) :
    s ≠ [] := by
  cases pat with
  | nil => exact absurd rfl hp
  | cons p ps =>
    intro hs
    subst hs
    simp [dropCI] at h

theorem matchTypeSink_nil : matchTypeSink [] = false := rfl

theorem matchTypeSink_extend {t u : Chars} (h : matchTypeSink t = true) :
    matchTypeSink (t ++ u) = true := by
  cases h1 : dropCI "TYPE".data t with
  | none => simp only [matchTypeSink, h1] at h; exact absurd h (by simp)
  | some r =>
    simp only [matchTypeSink, h1] at h
    cases r with
    | nil => simp at h
    | cons c r' =>
      simp only [Bool.and_eq_true] at h
      obtain ⟨hc, hsink⟩ := h
      obtain ⟨x, hx⟩ := Option.isSome_iff_exists.mp hsink
      have h2 := dropCI_append (u := u) h1
      simp only [matchTypeSink, h2, List.cons_append, Bool.and_eq_true]
      refine ⟨hc, ?_⟩
      have hne : (c :: r').dropWhile pyIsSpace ≠ [] :=
        dropCI_some_ne_nil (by simp [show "sink".data = 's' :: "ink".data from rfl]) hx
      have h3 : (c :: (r' ++ u)).dropWhile pyIsSpace
          = (c :: r').dropWhile pyIsSpace ++ u := by
        rw [show c :: (r' ++ u) = (c :: r') ++ u from rfl, List.dropWhile_append,
          if_neg (by simpa [List.isEmpty_iff] using hne)]
      rw [h3, dropCI_append hx]
      rfl

theorem mem_joinNl_decomp {l : Chars} {ls : List Chars} (h : l ∈ ls) :
    ∃ a b, joinNl ls = a ++ (l ++ b) := by
  induction ls with
  | nil => simp at h
  | cons x rest ih =>
    rcases List.mem_cons.mp h with h1 | h1
    · subst h1
      cases rest with
      | nil => exact ⟨[], [], by simp [joinNl]⟩
      | cons y ys =>
        exact ⟨[], '\n' :: joinNl (y :: ys), by rw [joinNl_cons (by simp)]; simp⟩
    · obtain ⟨a, b, hab⟩ := ih h1
      cases rest with
      | nil => simp at h1
      | cons y ys =>
        refine ⟨x ++ '\n' :: a, b, ?_⟩
        rw [joinNl_cons (by simp), hab]
        simp

theorem searchTypeSink_of_mem {t l : Chars} {ls : List Chars} (hm : l ∈ ls)
    (hs : t <:+ l) (h : matchTypeSink t = true) : searchTypeSink (joinNl ls) = true := by
  obtain ⟨a, b, hab⟩ := mem_joinNl_decomp hm
  obtain ⟨w, hw⟩ := hs
  have hext : matchTypeSink (t ++ b) = true := matchTypeSink_extend h
  cases t with
  | nil => rw [matchTypeSink_nil] at h; exact absurd h (by simp)
  | cons c t' =>
    rw [searchTypeSink, hab, ← hw,
      show a ++ ((w ++ (c :: t')) ++ b) = (a ++ w) ++ (c :: (t' ++ b)) by simp]
    exact anyPos_append_right _ (anyPos_head hext)

theorem fixSinksLines_marker_mem {l : Chars} {ls : List Chars} (hm : l ∈ ls)
    (h : lineStartsSink l = true) (b : Bool) :
    migrationMarker ++ l ∈ fixSinksLines b ls := by
  induction ls generalizing b with
  | nil => simp at hm
  | cons x rest ih =>
    rcases List.mem_cons.mp hm with h1 | h1
    · subst h1
      simp only [fixSinksLines]
      rw [fixSinksStep_start h b]
      exact List.mem_cons_self _ _
    · simp only [fixSinksLines]
      exact List.mem_cons_of_mem _ (ih h1 _)

/-- The commented content produced by Sinks remediation still matches the
detector pattern `TYPE\s+sink`. -/
theorem searchTypeSink_fixSinksContent {c : Chars} (h : searchTypeSink c = true) :
    searchTypeSink (fixSinksContent c) = true := by
  by_cases hex : ∃ l ∈ splitNl c, lineStartsSink l = true
  · obtain ⟨l, hl, hstart⟩ := hex
    have hmem : migrationMarker ++ l ∈ fixSinksLines false (splitNl c) :=
      fixSinksLines_marker_mem hl hstart false
    have hsuf : l.dropWhile pyIsSpace <:+ migrationMarker ++ l :=
      (List.dropWhile_suffix _).trans ⟨migrationMarker, rfl⟩
    exact searchTypeSink_of_mem hmem hsuf hstart
  · push_neg at hex
    have hid : fixSinksLines false (splitNl c) = splitNl c :=
      fixSinksLines_id (fun l hl => by simpa using hex l hl)
    rw [fixSinksContent, hid, joinNl_splitNl]
    exact h

/-! ### The include trigger pattern survives the remediation rewrite -/

theorem dropCI_of_map {pat pre : Chars}
    (h : pre.map Char.toLower = pat.map Char.toLower) (z : Chars) :
    dropCI pat (pre ++ z) = some z := by
  induction pat generalizing pre with
  | nil =>
    have : pre = [] := by simpa using h
    simp [this, dropCI]
  | cons p ps ih =>
    cases pre with
    | nil => simp at h
    | cons c pre' =>
      simp only [List.map_cons, List.cons.injEq] at h
      simp only [List.cons_append, dropCI, if_pos h.1.symm]
      exact ih h.2

theorem argMatch_decomp {s a r : Chars} (h : argMatch s = some (a, r)) :
    a ++ r = s ∧ ∃ w t, a = w :: t ∧ pyIsSpace w = true := by
  induction s generalizing a r with
  | nil => simp [argMatch] at h
  | cons c cs ih =>
    by_cases hc : pyIsSpace c = true
    · simp only [argMatch, hc, if_true] at h
      cases hma : argMatch cs with
      | some ar =>
        obtain ⟨a1, r1⟩ := ar
        rw [hma] at h
        simp only [Option.some.injEq, Prod.mk.injEq] at h
        obtain ⟨ha, hr⟩ := h
        obtain ⟨hsum, _, _, _, _⟩ := ih hma
        subst ha hr
        exact ⟨by simpa using hsum, c, a1, rfl, hc⟩
      | none =>
        rw [hma] at h
        by_cases he : (takeNonNl cs).isEmpty = true
        · simp [he] at h
        · simp only [he, if_neg, Bool.false_eq_true, not_false_eq_true,
            Option.some.injEq, Prod.mk.injEq] at h
          obtain ⟨ha, hr⟩ := h
          subst ha hr
          refine ⟨?_, c, takeNonNl cs, rfl, hc⟩
          simp only [List.cons_append, List.cons.injEq, true_and]
          exact List.takeWhile_append_dropWhile _ _
    · simp [argMatch, hc] at h

theorem matchIncludeFull_decomp {s a r : Chars} (h : matchIncludeFull s = some (a, r)) :
    s = a ++ r ∧ ∃ pre w t, a = pre ++ (w :: t) ∧
      pre.map Char.toLower = includeChars.map Char.toLower ∧ pyIsSpace w = true := by
  by_cases hp : isPrefixCI includeChars s = true
  · obtain ⟨r0, hr0⟩ := Option.isSome_iff_exists.mp hp
    obtain ⟨pre, hs, hmap⟩ := dropCI_decomp hr0
    have hplen : pre.length = 7 := by
      have := congrArg List.length hmap
      simpa using this
    have htake : s.take 7 = pre := by rw [hs, ← hplen, List.take_left]
    have hdrop : s.drop 7 = r0 := by rw [hs, ← hplen, List.drop_left]
    unfold matchIncludeFull at h
    rw [if_pos hp, hdrop] at h
    cases ham : argMatch r0 with
    | none => rw [ham] at h; cases h
    | some ar =>
      obtain ⟨a0, r1⟩ := ar
      rw [ham] at h
      simp only [Option.some.injEq, Prod.mk.injEq] at h
      obtain ⟨ha, hr⟩ := h
      obtain ⟨hsum, w, t, ha0, hw⟩ := argMatch_decomp ham
      subst hr
      refine ⟨?_, pre, w, t, ?_, hmap, hw⟩
      · rw [← ha, htake, hs, ← hsum, ha0]
        simp
      · rw [← ha, htake, ha0]
  · unfold matchIncludeFull at h
    rw [if_neg hp] at h
    cases h

theorem includeSubGo_fuel : ∀ (f : Nat) (s : Chars), s.length ≤ f →
    includeSubGo f s = includeSubGo s.length s := by
  intro f
  induction f using Nat.strong_induction_on with
  | _ f ih =>
    intro s hs
    cases f with
    | zero =>
      cases s with
      | nil => rfl
      | cons c cs => simp at hs
    | succ f' =>
      cases s with
      | nil => rfl
      | cons c cs =>
        have hlen : cs.length + 1 ≤ f' + 1 := by simpa using hs
        cases hm : matchIncludeFull (c :: cs) with
        | none =>
          simp only [List.length_cons, includeSubGo, hm]
          rw [ih f' (by omega) cs (by omega)]
        | some ar =>
          obtain ⟨a, r⟩ := ar
          obtain ⟨hsplit, pre, w, t, ha, hmap, hw⟩ := matchIncludeFull_decomp hm
          have ha1 : 1 ≤ a.length := by
            rw [ha]
            simp only [List.length_append, List.length_cons]
            omega
          have hr : r.length ≤ cs.length := by
            have hl := congrArg List.length hsplit
            simp only [List.length_cons, List.length_append] at hl
            omega
          simp only [List.length_cons, includeSubGo, hm]
          rw [ih f' (by omega) r (by omega), ih cs.length (by omega) r hr]

theorem includeSub_cons_no {c : Char} {cs : Chars}
    (hm : matchIncludeFull (c :: cs) = none) :
    includeSub (c :: cs) = c :: includeSub cs := by
  simp only [includeSub, List.length_cons, includeSubGo, hm]

theorem includeSub_cons_match {c : Char} {cs a r : Chars}
    (hm : matchIncludeFull (c :: cs) = some (a, r)) :
    includeSub (c :: cs) = migrationMarker ++ a ++ includeSub r := by
  obtain ⟨hsplit, pre, w, t, ha, hmap, hw⟩ := matchIncludeFull_decomp hm
  have ha1 : 1 ≤ a.length := by
    rw [ha]
    simp only [List.length_append, List.length_cons]
    omega
  have hr : r.length ≤ cs.length := by
    have hl := congrArg List.length hsplit
    simp only [List.length_cons, List.length_append] at hl
    omega
  simp only [includeSub, List.length_cons, includeSubGo, hm]
  rw [includeSubGo_fuel cs.length r hr]

theorem matchIncludeFull_none_head {c : Char} {cs : Chars} (h : c.toLower ≠ 'i') :
    matchIncludeFull (c :: cs) = none := by
  have hdc : dropCI includeChars (c :: cs) = none := by
    rw [show includeChars = 'I' :: "NCLUDE".data from rfl]
    simp only [dropCI]
    rw [if_neg (fun he => h (by rw [← he]; decide))]
  unfold matchIncludeFull
  rw [if_neg (by simp [isPrefixCI, hdc])]

theorem includeSub_of_no_i {s : Chars} (h : ∀ x ∈ s, x.toLower ≠ 'i') :
    includeSub s = s := by
  induction s with
  | nil => rfl
  | cons c cs ih =>
    rw [includeSub_cons_no (matchIncludeFull_none_head (h c (List.mem_cons_self _ _)))]
    exact congrArg (c :: ·) (ih fun x hx => h x (List.mem_cons_of_mem _ hx))

theorem pyIsSpace_toLower_ne_i {w : Char} (hw : pyIsSpace w = true) : w.toLower ≠ 'i' := by
  simp only [pyIsSpace, Bool.or_eq_true, beq_iff_eq] at hw
  rcases hw with ((((h | h) | h) | h) | h) | h <;> subst h <;> decide

theorem argMatch_cons_space {w : Char} {r : Chars} (hw : pyIsSpace w = true) :
    argMatch (w :: r) = (match argMatch r with
      | some (a, x) => some (w :: a, x)
      | none =>
        if (takeNonNl r).isEmpty then none
        else some (w :: takeNonNl r, dropNonNl r)) := by
  simp only [argMatch, hw, if_true]

theorem argMatch_none_nl : ∀ {r : Chars} {w : Char}, pyIsSpace w = true →
    argMatch (w :: r) = none → ∀ x ∈ r, x = '\n' := by
  intro r
  induction r with
  | nil =>
    intro w _ _ x hx
    simp at hx
  | cons d ds ih =>
    intro w hw hm x hx
    rw [argMatch_cons_space hw] at hm
    cases hma : argMatch (d :: ds) with
    | some ab =>
      obtain ⟨a1, r1⟩ := ab
      rw [hma] at hm
      simp at hm
    | none =>
      rw [hma] at hm
      by_cases he : (takeNonNl (d :: ds)).isEmpty = true
      · have hd : d = '\n' := by
          by_contra hd
          simp [takeNonNl, List.takeWhile_cons, hd] at he
        have hma' : argMatch ('\n' :: ds) = none := by rw [← hd]; exact hma
        have hds : ∀ y ∈ ds, y = '\n' := ih (by decide) hma'
        rcases List.mem_cons.mp hx with h1 | h1
        · rw [h1, hd]
        · exact hds x h1
      · rw [if_neg he] at hm
        cases hm

theorem searchInclude_includeSubAux : ∀ (n : Nat) (s : Chars), s.length = n →
    searchInclude s = true → searchInclude (includeSub s) = true := by
  intro n
  induction n using Nat.strong_induction_on with
  | _ n ih =>
    intro s hn h
    cases s with
    | nil => simp [searchInclude, anyPos] at h
    | cons c cs =>
      cases hm : matchIncludeFull (c :: cs) with
      | some ar =>
        obtain ⟨a, r⟩ := ar
        obtain ⟨hsplit, pre, w, t, ha, hmap, hw⟩ := matchIncludeFull_decomp hm
        rw [includeSub_cons_match hm, ha]
        have hmi : matchIncl (pre ++ (w :: (t ++ includeSub r))) = true := by
          unfold matchIncl
          rw [dropCI_of_map hmap]
          simpa using hw
        cases hpre : pre with
        | nil =>
          exfalso
          rw [hpre] at hmap
          have h7 := congrArg List.length hmap
          rw [show includeChars = ['I', 'N', 'C', 'L', 'U', 'D', 'E'] from rfl] at h7
          simp at h7
        | cons p0 pre' =>
          rw [hpre] at hmi
          rw [show migrationMarker ++ ((p0 :: pre') ++ (w :: t)) ++ includeSub r
              = migrationMarker ++ ((p0 :: pre') ++ (w :: (t ++ includeSub r))) by simp]
          exact anyPos_append_right _ (anyPos_head hmi)
      | none =>
        rw [includeSub_cons_no hm]
        have hor : matchIncl (c :: cs) = true ∨ searchInclude cs = true := by
          simpa [searchInclude, anyPos, Bool.or_eq_true] using h
        cases hcs : searchInclude cs with
        | true =>
          have hrec := ih cs.length (by rw [← hn, List.length_cons]; omega) cs rfl hcs
          simp only [searchInclude, anyPos, Bool.or_eq_true]
          exact Or.inr hrec
        | false =>
          have hmi : matchIncl (c :: cs) = true := by
            rcases hor with h1 | h1
            · exact h1
            · rw [hcs] at h1; cases h1
          unfold matchIncl at hmi
          cases hdc : dropCI includeChars (c :: cs) with
          | none => rw [hdc] at hmi; cases hmi
          | some r0 =>
            rw [hdc] at hmi
            cases r0 with
            | nil => simp at hmi
            | cons w r' =>
              obtain ⟨pre, hs, hmap⟩ := dropCI_decomp hdc
              have hplen : pre.length = 7 := by
                have := congrArg List.length hmap
                simpa using this
              have hd7 : (c :: cs).drop 7 = w :: r' := by
                rw [hs, ← hplen, List.drop_left]
              have ham : argMatch (w :: r') = none := by
                cases hx : argMatch (w :: r') with
                | none => rfl
                | some ab =>
                  exfalso
                  unfold matchIncludeFull at hm
                  rw [if_pos (by simp [isPrefixCI, hdc]), hd7, hx] at hm
                  cases hm
              have hnl : ∀ x ∈ r', x = '\n' := argMatch_none_nl hmi ham
              cases hpre : pre with
              | nil => rw [hpre] at hplen; simp at hplen
              | cons p0 pre' =>
                have hcs_eq : cs = pre' ++ w :: r' := by
                  rw [hpre] at hs
                  have h2 : c = p0 ∧ cs = pre' ++ w :: r' := by simpa using hs
                  exact h2.2
                have hmap7 : includeChars.map Char.toLower = 'i' :: "nclude".data := by
                  decide
                have hmap' : pre'.map Char.toLower = "nclude".data := by
                  rw [hpre, hmap7] at hmap
                  have h2 : p0.toLower = 'i' ∧ pre'.map Char.toLower = "nclude".data := by
                    simpa using hmap
                  exact h2.2
                have hnoi : ∀ x ∈ cs, x.toLower ≠ 'i' := by
                  rw [hcs_eq]
                  intro x hx
                  rcases List.mem_append.mp hx with hx | hx
                  · have hxm : x.toLower ∈ "nclude".data := by
                      rw [← hmap']
                      exact List.mem_map_of_mem _ hx
                    intro hxi
                    rw [hxi] at hxm
                    revert hxm
                    decide
                  · rcases List.mem_cons.mp hx with hx | hx
                    · rw [hx]
                      exact pyIsSpace_toLower_ne_i hmi
                    · rw [hnl x hx]
                      decide
                rw [includeSub_of_no_i hnoi]
                exact h

/-- The commented content produced by Include remediation still matches the
detector pattern `INCLUDE\s+`. -/
theorem searchInclude_includeSub {s : Chars} (h : searchInclude s = true) :
    searchInclude (includeSub s) = true :=
  searchInclude_includeSubAux s.length s rfl h

/-! ### Characterisation of the inventory buckets -/

theorem foldl_addFile (walk : List Path) (acc : FoundFiles) :
    walk.foldl addFile acc =
      ⟨acc.datasources ++ walk.filter isDatasourceFile,
       acc.pipes ++ walk.filter isPipeFile,
       acc.endpoints ++ walk.filter isEndpointFile,
       acc.includes ++ walk.filter isInclFile,
       acc.vendor ++ walk.filter isVendorBucketFile⟩ := by
  induction walk generalizing acc with
  | nil => simp
  | cons p rest ih =>
    rw [List.foldl_cons, ih]
    by_cases h1 : pathSuffix p = ".datasource".data
    · have e1 : isDatasourceFile p = true := by simp [isDatasourceFile, h1]
      have e2 : isPipeFile p = false := by simp [isPipeFile, e1]
      have e3 : isEndpointFile p = false := by simp [isEndpointFile, e1]
      have e4 : isInclFile p = false := by simp [isInclFile, e1]
      have e5 : isVendorBucketFile p = false := by
        simp only [isVendorBucketFile, isDatasourceFile] at e1 ⊢
        simp [e1]
      rw [show addFile acc p = { acc with datasources := acc.datasources ++ [p] } by
        unfold addFile; rw [if_pos h1]]
      simp [List.filter_cons, e1, e2, e3, e4, e5]
    · by_cases h2 : pathSuffix p = ".pipe".data
      · have e1 : isDatasourceFile p = false := by simp [isDatasourceFile, h1]
        have e2 : isPipeFile p = true := by simp [isPipeFile, e1, h2]
        have e3 : isEndpointFile p = false := by
          simp [isEndpointFile, h2]
        have e4 : isInclFile p = false := by simp [isInclFile, h2]
        have e5 : isVendorBucketFile p = false := by simp [isVendorBucketFile, h2]
        rw [show addFile acc p = { acc with pipes := acc.pipes ++ [p] } by
          unfold addFile; rw [if_neg h1, if_pos h2]]
        simp [List.filter_cons, e1, e2, e3, e4, e5]
      · by_cases h3 : pathSuffix p = ".endpoint".data
        · have e1 : isDatasourceFile p = false := by simp [isDatasourceFile, h1]
          have e2 : isPipeFile p = false := by simp [isPipeFile, h2]
          have e3 : isEndpointFile p = true := by simp [isEndpointFile, e1, h2, h3]
          have e4 : isInclFile p = false := by simp [isInclFile, h3]
          have e5 : isVendorBucketFile p = false := by simp [isVendorBucketFile, h3]
          rw [show addFile acc p = { acc with endpoints := acc.endpoints ++ [p] } by
            unfold addFile; rw [if_neg h1, if_neg h2, if_pos h3]]
          simp [List.filter_cons, e1, e2, e3, e4, e5]
        · by_cases h4 : pathSuffix p = ".incl".data
          · have e1 : isDatasourceFile p = false := by simp [isDatasourceFile, h1]
            have e2 : isPipeFile p = false := by simp [isPipeFile, h2]
            have e3 : isEndpointFile p = false := by simp [isEndpointFile, h3]
            have e4 : isInclFile p = true := by simp [isInclFile, e1, h2, h3, h4]
            have e5 : isVendorBucketFile p = false := by simp [isVendorBucketFile, h4]
            rw [show addFile acc p = { acc with includes := acc.includes ++ [p] } by
              unfold addFile; rw [if_neg h1, if_neg h2, if_neg h3, if_pos h4]]
            simp [List.filter_cons, e1, e2, e3, e4, e5]
          · have e1 : isDatasourceFile p = false := by simp [isDatasourceFile, h1]
            have e2 : isPipeFile p = false := by simp [isPipeFile, h2]
            have e3 : isEndpointFile p = false := by simp [isEndpointFile, h3]
            have e4 : isInclFile p = false := by simp [isInclFile, h4]
            by_cases h5 : (pathParts p).contains "vendor".data = true
            · have hmem : "vendor".data ∈ pathParts p := by simpa using h5
              have e5 : isVendorBucketFile p = true := by
                simp [isVendorBucketFile, h1, h2, h3, h4, hmem]
              rw [show addFile acc p = { acc with vendor := acc.vendor ++ [p] } by
                unfold addFile; rw [if_neg h1, if_neg h2, if_neg h3, if_neg h4, if_pos h5]]
              simp [List.filter_cons, e1, e2, e3, e4, e5]
            · have e5 : isVendorBucketFile p = false := by
                simp only [isVendorBucketFile, Bool.and_eq_false_iff]
                right
                simpa using h5
              rw [show addFile acc p = acc by
                unfold addFile; rw [if_neg h1, if_neg h2, if_neg h3, if_neg h4, if_neg h5]]
              simp [List.filter_cons, e1, e2, e3, e4, e5]

/-- The five buckets of a successful scan, in closed form. -/
theorem findTinybirdFiles_eq (walk : List Path) :
    findTinybirdFiles true walk =
      mkInv (walk.filter isDatasourceFile) (walk.filter isPipeFile)
        (walk.filter isEndpointFile) (walk.filter isInclFile)
        (walk.filter isVendorBucketFile) := by
  unfold findTinybirdFiles
  rw [if_pos rfl, foldl_addFile]
  rfl

/-! ### Endpoint remediation output always contains NODE -/

theorem anyPos_begins_self (pat z : Chars) (hp : pat ≠ []) :
    anyPos (fun s => begins pat s) (pat ++ z) = true := by
  cases pat with
  | nil => exact absurd rfl hp
  | cons p ps => exact anyPos_head (begins_append_self (p :: ps) z)

theorem containsNODE_fixEndpointContent (c : Chars) :
    containsNODE (fixEndpointContent c) = true := by
  unfold fixEndpointContent containsNODE
  rw [joinNl_cons (splitNl_ne_nil c),
    show "NODE endpoint".data = nodeChars ++ " endpoint".data from rfl, List.append_assoc]
  exact anyPos_begins_self nodeChars _ (by decide)

/-! ### File-system lemmas -/

theorem writeFS_broken (fs : FSState) (p : Path) (c : Chars) :
    (writeFS fs p c).broken = fs.broken := rfl

theorem lookup_setFile_same (l : List (Path × Chars)) (p : Path) (c : Chars) :
    ((setFile l p c).find? (fun pc => pc.1 == p)).map Prod.snd = some c := by
  induction l with
  | nil => simp [setFile, List.find?]
  | cons qd rest ih =>
    obtain ⟨q, d⟩ := qd
    by_cases hq : q = p
    · simp [setFile, hq, List.find?]
    · have hqb : (q == p) = false := by simpa using hq
      simp only [setFile, if_neg hq, List.find?_cons, hqb]
      exact ih

theorem lookup_setFile_ne (l : List (Path × Chars)) {p q : Path} (h : ¬q = p)
    (c : Chars) :
    ((setFile l p c).find? (fun pc => pc.1 == q)).map Prod.snd
      = (l.find? (fun pc => pc.1 == q)).map Prod.snd := by
  induction l with
  | nil =>
    have hb : (p == q) = false := by simpa using fun he => h he.symm
    simp [setFile, List.find?, hb]
  | cons rd rest ih =>
    obtain ⟨r, d⟩ := rd
    by_cases hr : r = p
    · have hb : (p == q) = false := by simpa using fun he => h he.symm
      have hrb : (r == q) = false := by

        simpa using fun he => h (by rw [← he, hr])
      simp [setFile, hr, List.find?, hb, hrb]
    · simp only [setFile, if_neg hr, List.find?_cons]
      cases hrq : (r == q) with
      | true => simp
      | false => exact ih

theorem lookupFile_write_same (fs : FSState) (p : Path) (c : Chars) :
    lookupFile (writeFS fs p c) p = some c :=
  lookup_setFile_same fs.files p c

theorem lookupFile_write_ne (fs : FSState) {p q : Path} (h : ¬q = p) (c : Chars) :
    lookupFile (writeFS fs p c) q = lookupFile fs q :=
  lookup_setFile_ne fs.files h c

theorem readFS_of_lookup {fs : FSState} {p : Path} {c : Chars} (hb : fs.broken = [])
    (hl : lookupFile fs p = some c) : readFS fs p = Except.ok c := by
  simp [readFS, hb, hl, List.contains]

/-! ### Single-file remediation steps -/

theorem fixSinks_single {p : Path} {c : Chars} {fs : FSState}
    (hr : readFS fs p = Except.ok c) (hg : searchTypeSink c = true) :
    fixSinks [p] fs = (["Commented out sink declarations in " ++ p],
      writeFS (writeFS fs (backupPath p) c) p (fixSinksContent c)) := by
  simp [fixSinks, hr, hg]

theorem fixSinks_single_no {p : Path} {c : Chars} {fs : FSState}
    (hr : readFS fs p = Except.ok c) (hg : searchTypeSink c = false) :
    fixSinks [p] fs = ([], fs) := by
  simp [fixSinks, hr, hg]

theorem fixIncludeLoop_single {p : Path} {c : Chars} {fs : FSState}
    (hr : readFS fs p = Except.ok c) (hg : searchIncludeFull c = true) :
    fixIncludeLoop [p] fs = (["Commented out INCLUDE statements in " ++ p],
      writeFS (writeFS fs (backupPath p) c) p (includeSub c)) := by
  simp [fixIncludeLoop, hr, hg]

theorem fixEndpointTypes_single {p : Path} {c : Chars} {fs : FSState}
    (hr : readFS fs p = Except.ok c) (hg : containsNODE c = false) :
    fixEndpointTypes [p] fs = (["Added missing NODE declaration to " ++ p],
      writeFS (writeFS fs (backupPath p) c) p (fixEndpointContent c)) := by
  simp [fixEndpointTypes, hr, hg]

theorem fixEndpointTypes_single_no {p : Path} {c : Chars} {fs : FSState}
    (hr : readFS fs p = Except.ok c) (hg : containsNODE c = true) :
    fixEndpointTypes [p] fs = ([], fs) := by
  simp [fixEndpointTypes, hr, hg]

/-! ### Closed forms of the four auto-fixable checks on a well-formed inventory -/

theorem exceptOk_bind {α β : Type} (a : α) (f : α → Except String β) :
    (Except.ok a >>= f : Except String β) = f a := rfl

theorem checkSinks_eq (ds pp ep inc vd : List Path) (fs : FSState) (confirm : Bool) :
    checkSinks (mkInv ds pp ep inc vd) fs confirm =
      (if (detectSinks fs pp).1.isEmpty then
        Except.ok (sinksFinding (detectSinks fs pp), fs)
      else if confirm then
        Except.ok ({ sinksFinding (detectSinks fs pp) with
            fixed_issues := some (fixSinks pp fs).1
            status := if (fixSinks pp fs).1.isEmpty then
                (sinksFinding (detectSinks fs pp)).status
              else "FIXED" },
          (fixSinks pp fs).2)
      else Except.ok (sinksFinding (detectSinks fs pp), fs)) := by
  unfold checkSinks
  rw [show dictGet (mkInv ds pp ep inc vd) "pipes" = Except.ok pp from rfl]
  by_cases hi : (detectSinks fs pp).1 = []
  · simp [hi, sinksFinding, pure, Except.pure, exceptOk_bind]
  · cases confirm <;>
      simp [hi, sinksFinding, pure, Except.pure, exceptOk_bind]

theorem checkEndpointTypes_eq (ds pp ep inc vd : List Path) (fs : FSState)
    (confirm : Bool) :
    checkEndpointTypes (mkInv ds pp ep inc vd) fs confirm =
      (if (detectEndpoints fs ep).1.isEmpty then
        Except.ok (endpointFinding (detectEndpoints fs ep), fs)
      else if confirm then
        Except.ok ({ endpointFinding (detectEndpoints fs ep) with
            fixed_issues := some (fixEndpointTypes ep fs).1
            status := if (fixEndpointTypes ep fs).1.isEmpty then
                (endpointFinding (detectEndpoints fs ep)).status
              else "FIXED" },
          (fixEndpointTypes ep fs).2)
      else Except.ok (endpointFinding (detectEndpoints fs ep), fs)) := by
  unfold checkEndpointTypes
  rw [show dictGet (mkInv ds pp ep inc vd) "endpoints" = Except.ok ep from rfl]
  by_cases hi : (detectEndpoints fs ep).1 = []
  · simp [hi, endpointFinding, pure, Except.pure, exceptOk_bind]
  · cases confirm <;>
      simp [hi, endpointFinding, pure, Except.pure, exceptOk_bind]

theorem checkSharedDatasources_eq (ds pp ep inc vd : List Path) (fs : FSState)
    (confirm confirmVendor : Bool) :
    checkSharedDatasources (mkInv ds pp ep inc vd) fs confirm confirmVendor =
      (let issues := (detectShared fs ds).1 ++ (if vd.isEmpty then [] else
        ["Vendor directory found with " ++ toString vd.length ++
         " files: Vendor datasources not supported in Forward"])
      let checked := (detectShared fs ds).2 ++ (if vd.isEmpty then [] else vd)
      if issues.isEmpty then Except.ok (sharedFinding issues checked, fs)
      else if confirm then
        Except.ok ({ sharedFinding issues checked with
            fixed_issues := some (fixSharedDatasources ds vd confirmVendor fs).1
            status := if (fixSharedDatasources ds vd confirmVendor fs).1.isEmpty then
                (sharedFinding issues checked).status
              else "FIXED" },
          (fixSharedDatasources ds vd confirmVendor fs).2)
      else Except.ok (sharedFinding issues checked, fs)) := by
  unfold checkSharedDatasources
  rw [show dictGet (mkInv ds pp ep inc vd) "datasources" = Except.ok ds from rfl]
  rw [show dictGet (mkInv ds pp ep inc vd) "vendor" = Except.ok vd from rfl]
  by_cases hds : (detectShared fs ds).1 = [] <;> by_cases hvd : vd = [] <;>
    cases confirm <;>
      simp [hds, hvd, sharedFinding, pure, Except.pure, exceptOk_bind]

theorem checkIncludeFiles_eq (ds pp ep inc vd : List Path) (root : Path)
    (fs : FSState) (confirm confirmMove : Bool) :
    checkIncludeFiles (mkInv ds pp ep inc vd) root fs confirm confirmMove =
      (let issues := (detectIncludes fs (pp ++ ds ++ ep)).1 ++ (if inc.isEmpty then []
        else ["Found " ++ toString inc.length ++
          " include files: Review for Forward compatibility"])
      let checked := (detectIncludes fs (pp ++ ds ++ ep)).2 ++
        (if inc.isEmpty then [] else inc)
      if issues.isEmpty then Except.ok (includeFinding issues checked, fs)
      else if confirm then
        Except.ok ({ includeFinding issues checked with
            fixed_issues := some (fixIncludeFiles (pp ++ ds ++ ep) inc root confirmMove fs).1
            status := if (fixIncludeFiles (pp ++ ds ++ ep) inc root confirmMove fs).1.isEmpty
              then (includeFinding issues checked).status
              else "FIXED" },
          (fixIncludeFiles (pp ++ ds ++ ep) inc root confirmMove fs).2)
      else Except.ok (includeFinding issues checked, fs)) := by
  unfold checkIncludeFiles
  rw [show dictGet (mkInv ds pp ep inc vd) "pipes" = Except.ok pp from rfl]
  rw [show dictGet (mkInv ds pp ep inc vd) "datasources" = Except.ok ds from rfl]
  rw [show dictGet (mkInv ds pp ep inc vd) "endpoints" = Except.ok ep from rfl]
  rw [show dictGet (mkInv ds pp ep inc vd) "includes" = Except.ok inc from rfl]
  by_cases hdet : (detectIncludes fs (pp ++ ds ++ ep)).1 = [] <;>
    by_cases hinc : inc = [] <;>
      cases confirm <;>
        simp [hdet, hinc, includeFinding, pure, Except.pure, exceptOk_bind]

/-- Every branch of the detect-offer-fix flow returns a finding whose issues,
auto_fixable and files_checked fields are those computed at detection time. -/
theorem finding_shape (b1 b2 : Bool) (base : MigrationCheckResult) (st : String)
    (fixed : List String) (fs fs2 : FSState) :
    ∃ f fs3, (if b1 = true then
        (Except.ok (base, fs) : Except String (MigrationCheckResult × FSState))
      else if b2 = true then
        Except.ok ({ base with fixed_issues := some fixed, status := st }, fs2)
      else Except.ok (base, fs)) = Except.ok (f, fs3) ∧
      f.issues = base.issues ∧ f.auto_fixable = base.auto_fixable ∧
      f.files_checked = base.files_checked := by
  cases b1 <;> cases b2 <;> exact ⟨_, _, rfl, by simp, by simp, by simp⟩

/-! ### Claims -/

/-- Claim C1 (code bug): when the scan root does not exist,
`find_tinybird_files` returns the empty dict with no bucket keys at all, so the
next detector run (`check_sinks`) raises `KeyError: pipes` instead of reporting
PASS with zero files checked — the run aborts rather than degrading. -/
theorem claimC1_missing_root :
    findTinybirdFiles false ["tinybird/a.pipe"] = [] ∧
      runErr (checkSinks (findTinybirdFiles false ["tinybird/a.pipe"]) ⟨[], []⟩ false)
        = some "KeyError: pipes" := by
  constructor
  · rfl
  · rfl

/-- Claim C2 (counterexample): a `.datasource` file under `vendor/legacy/` is
classified only into the datasources bucket by the elif chain; the vendor
bucket stays empty, and the Shared Datasources detector reports PASS when the
file contains no SHARED_WITH text — the claimed dual membership and
vendor-presence flagging do not happen. -/
theorem claimC2_counterexample :
    findTinybirdFiles true ["vendor/legacy/a.datasource"]
        = mkInv ["vendor/legacy/a.datasource"] [] [] [] [] ∧
      runStatus (checkSharedDatasources
          (findTinybirdFiles true ["vendor/legacy/a.datasource"])
          ⟨[("vendor/legacy/a.datasource", "SCHEMA x".data)], []⟩ false false)
        = some "PASS" := by
  constructor
  · rfl
  · rfl

/-- Claim C2 (amended): the vendor bucket is populated only by files whose
extension matched none of `.datasource`/`.pipe`/`.endpoint`/`.incl` (the elif
chain), so a `.datasource` file under a `vendor/` directory lands in the
datasources bucket only and never appears in the vendor bucket. -/
theorem claimC2_amended :
    (∀ walk : List Path,
      findTinybirdFiles true walk =
        mkInv (walk.filter isDatasourceFile) (walk.filter isPipeFile)
          (walk.filter isEndpointFile) (walk.filter isInclFile)
          (walk.filter isVendorBucketFile)) ∧
    (∀ (walk : List Path) (p : Path), isDatasourceFile p = true →
      p ∉ walk.filter isVendorBucketFile) := by
  constructor
  · exact findTinybirdFiles_eq
  · intro walk p hds hmem
    have hv := List.of_mem_filter hmem
    simp only [isVendorBucketFile, isDatasourceFile, Bool.and_eq_true, Bool.not_eq_true'] at hv
    simp only [isDatasourceFile] at hds
    rw [hds] at hv
    simp at hv

theorem claimC2_witness :
    "vendor/legacy/a.datasource"
      ∉ (["vendor/legacy/a.datasource"] : List Path).filter isVendorBucketFile :=
  claimC2_amended.2 ["vendor/legacy/a.datasource"] "vendor/legacy/a.datasource" (by decide)

/-- Claim C4 (counterexample): after Sinks remediation rewrote `a.pipe`, the
Sinks detector run again on the fixed file still reports FAIL, because the
marker comment preserves the `TYPE sink` text. -/
theorem claimC4_counterexample :
    runStatus (checkSinks (mkInv [] ["a.pipe"] [] [] [])
        (fixSinks ["a.pipe"] ⟨[("a.pipe", "TYPE sink".data)], []⟩).2 false)
      = some "FAIL" := by
  rfl

/-- Claim C4 (amended): the marker comment written by the Sinks and Include
remediations preserves the original statement text, which still matches the
corresponding detector trigger pattern — re-running the detector on a fixed
file therefore still reports the issue (FAIL or WARNING), not PASS. -/
theorem claimC4_amended :
    (∀ c : Chars, searchTypeSink c = true →
      searchTypeSink (fixSinksContent c) = true) ∧
    (∀ c : Chars, searchInclude c = true → searchInclude (includeSub c) = true) :=
  ⟨fun _ h => searchTypeSink_fixSinksContent h, fun _ h => searchInclude_includeSub h⟩

theorem claimC4_witness :
    searchTypeSink (fixSinksContent "TYPE sink".data) = true ∧
      searchInclude (includeSub "INCLUDE x".data) = true :=
  ⟨claimC4_amended.1 "TYPE sink".data (by decide),
   claimC4_amended.2 "INCLUDE x".data (by decide)⟩

/-- Claim C6 (counterexample): a blank line does not close the sink section, so
the unrelated non-blank line after it is still commented out — contradicting
the claim that nothing after the block end is commented. -/
theorem claimC6_counterexample :
    fixSinksContent "TYPE sink\n\nunrelated text".data
      = ("# COMMENTED OUT FOR FORWARD MIGRATION: TYPE sink\n\n" ++
         "# COMMENTED OUT FOR FORWARD MIGRATION: unrelated text").data := by
  rfl

/-- Claim C6 (amended): on the three-line scenario the detector reports FAIL
with exactly one issue; confirmed remediation comments lines 1 and 2, leaves
`NODE next` unchanged, and content after a NODE-closed block is untouched.
The sink section is closed only by a non-blank, non-comment line starting with
NODE or SQL — not by blank lines. -/
theorem claimC6_amended :
    checkSinks (mkInv [] ["a.pipe"] [] [] [])
        ⟨[("a.pipe", "TYPE sink\nEXPORT_SERVICE s3\nNODE next".data)], []⟩ true
      = Except.ok
        ({ step_name := "Sinks Check", status := "FIXED"
           issues := [sinkIssue "a.pipe"], files_checked := ["a.pipe"]
           details := "Checked all .pipe files for TYPE sink declarations."
           auto_fixable := true
           fixed_issues := some ["Commented out sink declarations in a.pipe"] },
         ⟨[("a.pipe",
            ("# COMMENTED OUT FOR FORWARD MIGRATION: TYPE sink\n" ++
             "# COMMENTED OUT FOR FORWARD MIGRATION: EXPORT_SERVICE s3\n" ++
             "NODE next").data),
           ("a.pipe.backup", "TYPE sink\nEXPORT_SERVICE s3\nNODE next".data)], []⟩) ∧
      fixSinksContent "TYPE sink\nEXPORT_SERVICE s3\nNODE next\nSELECT later".data
        = ("# COMMENTED OUT FOR FORWARD MIGRATION: TYPE sink\n" ++
           "# COMMENTED OUT FOR FORWARD MIGRATION: EXPORT_SERVICE s3\n" ++
           "NODE next\nSELECT later").data := by
  constructor
  · rfl
  · rfl

/-- Claim C7 (counterexample): a check_* routine is not pure — with an issue
present and the operator confirming, check_sinks mutates the file system. -/
theorem claimC7_counterexample :
    runFS (checkSinks (mkInv [] ["a.pipe"] [] [] [])
        ⟨[("a.pipe", "TYPE sink".data)], []⟩ true)
      ≠ some ⟨[("a.pipe", "TYPE sink".data)], []⟩ := by
  decide

/-- Claim C7 (amended): the detection scan itself is read-only, but check_sinks
and check_include_files interleave remediation.  The file system is left
unchanged exactly when the confirmation is declined or no issue was detected;
with issues and confirmation the routine mutates files before returning. -/
theorem claimC7_amended :
    (∀ (ds pp ep inc vd : List Path) (fs : FSState),
      runFS (checkSinks (mkInv ds pp ep inc vd) fs false) = some fs) ∧
    (∀ (ds pp ep inc vd : List Path) (root : Path) (fs : FSState) (cm : Bool),
      runFS (checkIncludeFiles (mkInv ds pp ep inc vd) root fs false cm) = some fs) ∧
    (∀ (ds pp ep inc vd : List Path) (fs : FSState), (detectSinks fs pp).1 = [] →
      runFS (checkSinks (mkInv ds pp ep inc vd) fs true) = some fs) ∧
    (∀ (ds pp ep inc vd : List Path) (root : Path) (fs : FSState) (cm : Bool),
      (detectIncludes fs (pp ++ ds ++ ep)).1 = [] → inc = [] →
      runFS (checkIncludeFiles (mkInv ds pp ep inc vd) root fs true cm) = some fs) := by
  refine ⟨?_, ?_, ?_, ?_⟩
  · intro ds pp ep inc vd fs
    rw [checkSinks_eq]
    by_cases hi : (detectSinks fs pp).1.isEmpty = true
    · rw [if_pos hi]
      rfl
    · rw [if_neg hi, if_neg (by simp)]
      rfl
  · intro ds pp ep inc vd root fs cm
    rw [checkIncludeFiles_eq]
    by_cases hi : ((detectIncludes fs (pp ++ ds ++ ep)).1 ++ (if inc.isEmpty then []
        else ["Found " ++ toString inc.length ++
          " include files: Review for Forward compatibility"])).isEmpty = true
    · rw [if_pos hi]
      rfl
    · rw [if_neg hi, if_neg (by simp)]
      rfl
  · intro ds pp ep inc vd fs h
    rw [checkSinks_eq, if_pos (by simp [h])]
    rfl
  · intro ds pp ep inc vd root fs cm h1 h2
    rw [List.append_assoc] at h1
    rw [checkIncludeFiles_eq]
    rw [if_pos (by simp [h1, h2])]
    rfl

theorem claimC7_witness :
    runFS (checkSinks (mkInv [] ["a.pipe"] [] [] [])
        ⟨[("a.pipe", "NODE x".data)], []⟩ false)
      = some ⟨[("a.pipe", "NODE x".data)], []⟩ ∧
    runFS (checkSinks (mkInv [] ["a.pipe"] [] [] [])
        ⟨[("a.pipe", "NODE x".data)], []⟩ true)
      = some ⟨[("a.pipe", "NODE x".data)], []⟩ :=
  ⟨claimC7_amended.1 [] ["a.pipe"] [] [] [] _,
   claimC7_amended.2.2.1 [] ["a.pipe"] [] [] [] _ (by decide)⟩

/-- Claim C8: a file whose read fails contributes an `Error reading` issue
string to the finding instead of aborting — every file still appears in
files_checked, detection continues with the remaining files, and a per-file
read failure inside the fix batch skips only that file. -/
theorem claimC8_error_isolation :
    (∀ (fs : FSState) (ps : List Path), (detectSinks fs ps).2 = ps) ∧
    (∀ (fs : FSState) (e : String) (p : Path) (ps : List Path),
      readFS fs p = Except.error e →
      detectSinks fs (p :: ps)
        = (readErrIssue p e :: (detectSinks fs ps).1, p :: (detectSinks fs ps).2)) ∧
    (∀ (fs : FSState) (e : String) (p : Path) (ps : List Path),
      readFS fs p = Except.error e → fixSinks (p :: ps) fs = fixSinks ps fs) ∧
    (∀ (ds pp ep inc vd : List Path) (fs : FSState) (confirm : Bool),
      ∃ f fs2, checkSinks (mkInv ds pp ep inc vd) fs confirm = Except.ok (f, fs2) ∧
        f.issues = (detectSinks fs pp).1 ∧ f.files_checked = (detectSinks fs pp).2) := by
  refine ⟨?_, ?_, ?_, ?_⟩
  · intro fs ps
    induction ps with
    | nil => rfl
    | cons p ps ih =>
      cases hr : readFS fs p <;> simp [detectSinks, hr, ih]
  · intro fs e p ps hr
    simp [detectSinks, hr]
  · intro fs e p ps hr
    simp [fixSinks, hr]
  · intro ds pp ep inc vd fs confirm
    obtain ⟨f, fs3, heq, hiss, _, hchk⟩ := finding_shape
      ((detectSinks fs pp).1.isEmpty) confirm (sinksFinding (detectSinks fs pp))
      (if (fixSinks pp fs).1.isEmpty = true then
        (sinksFinding (detectSinks fs pp)).status else "FIXED")
      ((fixSinks pp fs).1) fs ((fixSinks pp fs).2)
    refine ⟨f, fs3, ?_, ?_, ?_⟩
    · rw [checkSinks_eq]
      exact heq
    · rw [hiss]
      rfl
    · rw [hchk]
      rfl

theorem claimC8_witness :
    detectSinks ⟨[], ["a.pipe"]⟩ ["a.pipe", "b.pipe"]
        = (readErrIssue "a.pipe" "read failed"
            :: (detectSinks ⟨[], ["a.pipe"]⟩ ["b.pipe"]).1,
           "a.pipe" :: (detectSinks ⟨[], ["a.pipe"]⟩ ["b.pipe"]).2) ∧
      fixSinks ["a.pipe", "b.pipe"] ⟨[], ["a.pipe"]⟩
        = fixSinks ["b.pipe"] ⟨[], ["a.pipe"]⟩ :=
  ⟨claimC8_error_isolation.2.1 ⟨[], ["a.pipe"]⟩ "read failed" "a.pipe" ["b.pipe"] rfl,
   claimC8_error_isolation.2.2.1 ⟨[], ["a.pipe"]⟩ "read failed" "a.pipe" ["b.pipe"] rfl⟩

/-- Claim C9: for the Sinks, Shared Datasources, Endpoint Types and Include
Files checks, the finding's auto_fixable flag is true exactly when the issues
list is non-empty — read-error-only issue lists included. -/
theorem claimC9_auto_fixable_iff (ds pp ep inc vd : List Path) (root : Path)
    (fs : FSState) (confirm confirmVendor confirmMove : Bool) :
    (∃ f fs2, checkSinks (mkInv ds pp ep inc vd) fs confirm = Except.ok (f, fs2) ∧
      (f.auto_fixable = true ↔ f.issues ≠ [])) ∧
    (∃ f fs2, checkSharedDatasources (mkInv ds pp ep inc vd) fs confirm confirmVendor
        = Except.ok (f, fs2) ∧ (f.auto_fixable = true ↔ f.issues ≠ [])) ∧
    (∃ f fs2, checkEndpointTypes (mkInv ds pp ep inc vd) fs confirm
        = Except.ok (f, fs2) ∧ (f.auto_fixable = true ↔ f.issues ≠ [])) ∧
    (∃ f fs2, checkIncludeFiles (mkInv ds pp ep inc vd) root fs confirm confirmMove
        = Except.ok (f, fs2) ∧ (f.auto_fixable = true ↔ f.issues ≠ [])) := by
  refine ⟨?_, ?_, ?_, ?_⟩
  · obtain ⟨f, fs3, heq, hiss, hauto, _⟩ := finding_shape
      ((detectSinks fs pp).1.isEmpty) confirm (sinksFinding (detectSinks fs pp))
      (if (fixSinks pp fs).1.isEmpty = true then
        (sinksFinding (detectSinks fs pp)).status else "FIXED")
      ((fixSinks pp fs).1) fs ((fixSinks pp fs).2)
    refine ⟨f, fs3, by rw [checkSinks_eq]; exact heq, ?_⟩
    rw [hauto, hiss]
    simp [sinksFinding]
  · obtain ⟨f, fs3, heq, hiss, hauto, _⟩ := finding_shape
      (((detectShared fs ds).1 ++ (if vd.isEmpty then [] else
        ["Vendor directory found with " ++ toString vd.length ++
         " files: Vendor datasources not supported in Forward"])).isEmpty) confirm
      (sharedFinding ((detectShared fs ds).1 ++ (if vd.isEmpty then [] else
        ["Vendor directory found with " ++ toString vd.length ++
         " files: Vendor datasources not supported in Forward"]))
        ((detectShared fs ds).2 ++ (if vd.isEmpty then [] else vd)))
      (if (fixSharedDatasources ds vd confirmVendor fs).1.isEmpty = true then
        (sharedFinding ((detectShared fs ds).1 ++ (if vd.isEmpty then [] else
          ["Vendor directory found with " ++ toString vd.length ++
           " files: Vendor datasources not supported in Forward"]))
          ((detectShared fs ds).2 ++ (if vd.isEmpty then [] else vd))).status
       else "FIXED")
      ((fixSharedDatasources ds vd confirmVendor fs).1) fs
      ((fixSharedDatasources ds vd confirmVendor fs).2)
    refine ⟨f, fs3, by rw [checkSharedDatasources_eq]; exact heq, ?_⟩
    rw [hauto, hiss]
    simp [sharedFinding]
  · obtain ⟨f, fs3, heq, hiss, hauto, _⟩ := finding_shape
      ((detectEndpoints fs ep).1.isEmpty) confirm
      (endpointFinding (detectEndpoints fs ep))
      (if (fixEndpointTypes ep fs).1.isEmpty = true then
        (endpointFinding (detectEndpoints fs ep)).status else "FIXED")
      ((fixEndpointTypes ep fs).1) fs ((fixEndpointTypes ep fs).2)
    refine ⟨f, fs3, by rw [checkEndpointTypes_eq]; exact heq, ?_⟩
    rw [hauto, hiss]
    simp [endpointFinding]
  · obtain ⟨f, fs3, heq, hiss, hauto, _⟩ := finding_shape
      (((detectIncludes fs (pp ++ ds ++ ep)).1 ++ (if inc.isEmpty then [] else
        ["Found " ++ toString inc.length ++
         " include files: Review for Forward compatibility"])).isEmpty) confirm
      (includeFinding ((detectIncludes fs (pp ++ ds ++ ep)).1 ++
          (if inc.isEmpty then [] else
          ["Found " ++ toString inc.length ++
           " include files: Review for Forward compatibility"]))
        ((detectIncludes fs (pp ++ ds ++ ep)).2 ++ (if inc.isEmpty then [] else inc)))
      (if (fixIncludeFiles (pp ++ ds ++ ep) inc root confirmMove fs).1.isEmpty = true
        then (includeFinding ((detectIncludes fs (pp ++ ds ++ ep)).1 ++
            (if inc.isEmpty then [] else
            ["Found " ++ toString inc.length ++
             " include files: Review for Forward compatibility"]))
          ((detectIncludes fs (pp ++ ds ++ ep)).2 ++
            (if inc.isEmpty then [] else inc))).status
        else "FIXED")
      ((fixIncludeFiles (pp ++ ds ++ ep) inc root confirmMove fs).1) fs
      ((fixIncludeFiles (pp ++ ds ++ ep) inc root confirmMove fs).2)
    refine ⟨f, fs3, by rw [checkIncludeFiles_eq]; exact heq, ?_⟩
    rw [hauto, hiss]
    simp [includeFinding]

/-- Claim C10: a finding's status becomes FIXED only when the confirmed
remediation returned a non-empty fixed list; when it fixes nothing the status
keeps its pre-remediation value (FAIL for Sinks, WARNING for Endpoint Types)
and fixed_issues is the empty list. -/
theorem claimC10_fixed_status (ds pp ep inc vd : List Path) (fs : FSState) :
    (∃ f fs2, checkSinks (mkInv ds pp ep inc vd) fs true = Except.ok (f, fs2) ∧
      ((detectSinks fs pp).1 = [] → f.status = "PASS" ∧ f.fixed_issues = none) ∧
      ((detectSinks fs pp).1 ≠ [] →
        f.fixed_issues = some (fixSinks pp fs).1 ∧
        f.status = (if (fixSinks pp fs).1 = [] then "FAIL" else "FIXED"))) ∧
    (∃ f fs2, checkEndpointTypes (mkInv ds pp ep inc vd) fs true = Except.ok (f, fs2) ∧
      ((detectEndpoints fs ep).1 = [] → f.status = "PASS" ∧ f.fixed_issues = none) ∧
      ((detectEndpoints fs ep).1 ≠ [] →
        f.fixed_issues = some (fixEndpointTypes ep fs).1 ∧
        f.status = (if (fixEndpointTypes ep fs).1 = [] then "WARNING" else "FIXED"))) := by
  constructor
  · rw [checkSinks_eq]
    by_cases hi : (detectSinks fs pp).1 = []
    · refine ⟨_, _, if_pos (by simp [hi]), ?_, ?_⟩
      · intro _
        simp [sinksFinding, hi]
      · intro hne
        exact absurd hi hne
    · rw [if_neg (by simp [hi]), if_pos rfl]
      refine ⟨_, _, rfl, ?_, ?_⟩
      · intro h
        exact absurd h hi
      · intro _
        refine ⟨rfl, ?_⟩
        by_cases hf : (fixSinks pp fs).1 = []
        · simp [hf, sinksFinding, hi]
        · simp [hf, sinksFinding, hi]
  · rw [checkEndpointTypes_eq]
    by_cases hi : (detectEndpoints fs ep).1 = []
    · refine ⟨_, _, if_pos (by simp [hi]), ?_, ?_⟩
      · intro _
        simp [endpointFinding, hi]
      · intro hne
        exact absurd hi hne
    · rw [if_neg (by simp [hi]), if_pos rfl]
      refine ⟨_, _, rfl, ?_, ?_⟩
      · intro h
        exact absurd h hi
      · intro _
        refine ⟨rfl, ?_⟩
        by_cases hf : (fixEndpointTypes ep fs).1 = []
        · simp [hf, endpointFinding, hi]
        · simp [hf, endpointFinding, hi]

theorem claimC10_witness :
    runStatus (checkSinks (mkInv [] ["a.pipe"] [] [] []) ⟨[], ["a.pipe"]⟩ true)
      = some "FAIL" := by
  obtain ⟨⟨f, fs2, heq, _, hfail⟩, _⟩ :=
    claimC10_fixed_status [] ["a.pipe"] [] [] [] ⟨[], ["a.pipe"]⟩
  have h2 := hfail (by decide)
  have hfix : (fixSinks ["a.pipe"] (⟨[], ["a.pipe"]⟩ : FSState)).1 = [] := by decide
  simp [runStatus, runFinding, heq, h2.2, hfix]

/-- Claim C3 (counterexample): when two remediations touch the same file in one
run, the second `backup_file` call overwrites the first backup — after Sinks
remediation followed by Include remediation, `a.pipe.backup` no longer holds
the run's original pre-mutation content. -/
theorem claimC3_counterexample :
    lookupFile (fixIncludeFiles ["a.pipe"] [] "tinybird" false
        (fixSinks ["a.pipe"] ⟨[("a.pipe", "TYPE sink\nINCLUDE x".data)], []⟩).2).2
      "a.pipe.backup" ≠ some "TYPE sink\nINCLUDE x".data := by
  decide

/-- Claim C3 (amended): each remediation copies the file's current content to
`<name>.backup` immediately before its own mutating write, unconditionally
overwriting any existing backup; after a second remediation touches the same
file in the same run, the backup holds the content produced by the first
remediation, not the run's original content. -/
theorem claimC3_amended (c : Chars) (h1 : searchTypeSink c = true)
    (h2 : searchIncludeFull (fixSinksContent c) = true) :
    lookupFile (fixSinks ["a.pipe"] ⟨[("a.pipe", c)], []⟩).2 "a.pipe.backup"
        = some c ∧
      lookupFile (fixIncludeFiles ["a.pipe"] [] "tinybird" false
          (fixSinks ["a.pipe"] ⟨[("a.pipe", c)], []⟩).2).2 "a.pipe.backup"
        = some (fixSinksContent c) := by
  have hr0 : readFS ⟨[("a.pipe", c)], []⟩ "a.pipe" = Except.ok c := by
    simp [readFS, lookupFile]
  rw [fixSinks_single hr0 h1]
  have hbp : backupPath "a.pipe" = "a.pipe.backup" := by decide
  constructor
  · rw [← hbp, lookupFile_write_ne _ (by decide) _, lookupFile_write_same]
  · have hl1 : lookupFile (writeFS (writeFS ⟨[("a.pipe", c)], []⟩
        (backupPath "a.pipe") c) "a.pipe" (fixSinksContent c)) "a.pipe"
        = some (fixSinksContent c) := lookupFile_write_same _ _ _
    have hr1 : readFS (writeFS (writeFS ⟨[("a.pipe", c)], []⟩
        (backupPath "a.pipe") c) "a.pipe" (fixSinksContent c)) "a.pipe"
        = Except.ok (fixSinksContent c) := readFS_of_lookup rfl hl1
    have hincl : fixIncludeFiles ["a.pipe"] [] "tinybird" false
        (writeFS (writeFS ⟨[("a.pipe", c)], []⟩ (backupPath "a.pipe") c) "a.pipe"
          (fixSinksContent c))
        = fixIncludeLoop ["a.pipe"]
          (writeFS (writeFS ⟨[("a.pipe", c)], []⟩ (backupPath "a.pipe") c) "a.pipe"
            (fixSinksContent c)) := by
      simp [fixIncludeFiles]
    rw [hincl, fixIncludeLoop_single hr1 h2, ← hbp,
      lookupFile_write_ne _ (by decide) _, lookupFile_write_same]

theorem claimC3_witness :
    lookupFile (fixSinks ["a.pipe"]
        ⟨[("a.pipe", "TYPE sink\nINCLUDE x".data)], []⟩).2 "a.pipe.backup"
        = some "TYPE sink\nINCLUDE x".data ∧
      lookupFile (fixIncludeFiles ["a.pipe"] [] "tinybird" false
          (fixSinks ["a.pipe"] ⟨[("a.pipe", "TYPE sink\nINCLUDE x".data)], []⟩).2).2
        "a.pipe.backup"
        = some (fixSinksContent "TYPE sink\nINCLUDE x".data) :=
  claimC3_amended "TYPE sink\nINCLUDE x".data (by decide) (by decide)

/-- Claim C5 (counterexample): the Include remediation is not idempotent —
running it twice on a file containing `INCLUDE x` double-comments the line, so
the content after the second run differs from the content after the first. -/
theorem claimC5_counterexample :
    lookupFile (fixIncludeFiles ["a.pipe"] [] "tinybird" false
        (fixIncludeFiles ["a.pipe"] [] "tinybird" false
          ⟨[("a.pipe", "INCLUDE x".data)], []⟩).2).2 "a.pipe"
      ≠ lookupFile (fixIncludeFiles ["a.pipe"] [] "tinybird" false
          ⟨[("a.pipe", "INCLUDE x".data)], []⟩).2 "a.pipe" := by
  decide

/-- Claim C5 (amended): the Sinks and Endpoint Types remediations are
idempotent on file content — running either twice on the same file leaves the
content after the second run identical to the content after the first.  The
Include remediation is not idempotent (it double-comments already-commented
INCLUDE lines), and no idempotence holds for the Shared Datasources rewrite. -/
theorem claimC5_amended (c : Chars) :
    lookupFile (fixSinks ["a.pipe"]
          (fixSinks ["a.pipe"] ⟨[("a.pipe", c)], []⟩).2).2 "a.pipe"
        = lookupFile (fixSinks ["a.pipe"] ⟨[("a.pipe", c)], []⟩).2 "a.pipe" ∧
      lookupFile (fixEndpointTypes ["a.endpoint"]
          (fixEndpointTypes ["a.endpoint"] ⟨[("a.endpoint", c)], []⟩).2).2 "a.endpoint"
        = lookupFile (fixEndpointTypes ["a.endpoint"]
            ⟨[("a.endpoint", c)], []⟩).2 "a.endpoint" := by
  constructor
  · have hr0 : readFS ⟨[("a.pipe", c)], []⟩ "a.pipe" = Except.ok c := by
      simp [readFS, lookupFile]
    by_cases hg : searchTypeSink c = true
    · rw [fixSinks_single hr0 hg]
      have hl1 : lookupFile (writeFS (writeFS ⟨[("a.pipe", c)], []⟩
          (backupPath "a.pipe") c) "a.pipe" (fixSinksContent c)) "a.pipe"
          = some (fixSinksContent c) := lookupFile_write_same _ _ _
      have hr1 : readFS (writeFS (writeFS ⟨[("a.pipe", c)], []⟩
          (backupPath "a.pipe") c) "a.pipe" (fixSinksContent c)) "a.pipe"
          = Except.ok (fixSinksContent c) := readFS_of_lookup rfl hl1
      by_cases hg2 : searchTypeSink (fixSinksContent c) = true
      · rw [fixSinks_single hr1 hg2, lookupFile_write_same, hl1,
          fixSinksContent_idem]
      · rw [fixSinks_single_no hr1 (by simpa using hg2)]
    · rw [fixSinks_single_no hr0 (by simpa using hg),
        fixSinks_single_no hr0 (by simpa using hg)]
  · have hr0 : readFS ⟨[("a.endpoint", c)], []⟩ "a.endpoint" = Except.ok c := by
      simp [readFS, lookupFile]
    by_cases hg : containsNODE c = true
    · rw [fixEndpointTypes_single_no hr0 hg, fixEndpointTypes_single_no hr0 hg]
    · rw [fixEndpointTypes_single hr0 (by simpa using hg)]
      have hl1 : lookupFile (writeFS (writeFS ⟨[("a.endpoint", c)], []⟩
          (backupPath "a.endpoint") c) "a.endpoint" (fixEndpointContent c)) "a.endpoint"
          = some (fixEndpointContent c) := lookupFile_write_same _ _ _
      have hr1 : readFS (writeFS (writeFS ⟨[("a.endpoint", c)], []⟩
          (backupPath "a.endpoint") c) "a.endpoint" (fixEndpointContent c)) "a.endpoint"
          = Except.ok (fixEndpointContent c) := readFS_of_lookup rfl hl1
      rw [fixEndpointTypes_single_no hr1 (containsNODE_fixEndpointContent c)]

end ForwardMigration
